import Mathlib

/-!
Verification development for the eCTF 2023 UNewHaven firmware protocol core.

The definitions below are a shallow embedding of the C sources:
  * the framing receive state machine and transmit path of the fob/car
    comms layer (`receive_anything_uart`, `process_received_packet`,
    `generate_send_message`, the session-establishment branch),
  * the fob command handlers (`process_host_uart`, `process_board_uart`,
    `process_received_new_feature`, `startUnlockCar`, `saveFobState`,
    `get_if_paired`),
  * the car board-link handler (`process_board_uart`, `unlockCar`).

Machine integers are modelled as `Nat` with explicit `% 256` / `% 65536`
where the C code truncates; byte buffers are `List Nat` (or `Nat → Nat`
for the car's raw receive buffer, whose handler reads one byte past the
delivered payload); external crypto primitives (ECDH, AES, CRC-16) are
function parameters, matching the spec's "pure functions" facade.
-/

namespace ECTF

/-! ### Protocol constants (command bytes from PROTOCOL.md / comms usage) -/

def COMMAND_BYTE_NEW_MESSAGE_ECDH : Nat := 0xAB

def COMMAND_BYTE_RETURN_OWN_ECDH : Nat := 0xE0

def COMMAND_BYTE_PAIRED_IN_PAIRING_MODE : Nat := 0x4D

def COMMAND_BYTE_UNPARED_IN_PARING_MODE : Nat := 0x50

def COMMAND_BYTE_GET_SECRET : Nat := 0x47

def COMMAND_BYTE_RETURN_SECRET : Nat := 0x52

def COMMAND_BYTE_ENABLE_FEATURE : Nat := 0x45

def COMMAND_BYTE_TO_CAR_UNLOCK : Nat := 0x55

def COMMAND_BYTE_ACK : Nat := 0x41

def COMMAND_BYTE_NACK : Nat := 0xAA

def ECDH_PUBLIC_KEY_BYTES : Nat := 48

def AES_IV_SIZE_BYTES : Nat := 16

def AES_BLOCKLEN : Nat := 16

/-- Modelled from the spec: `MAXIMUM_PACKET_SIZE` lives in `comms.h`, which is
not under `src/`; spec section 3 bounds the length byte by a compile-time
constant with a 256-byte receive buffer in the reference. -/
def MAXIMUM_PACKET_SIZE : Nat := 256

/-- Modelled from the spec: `MAXIMUM_DATA_BUFFER` lives in `comms.h`, which is
not under `src/`; the spec fixes the reference receive buffer at 256 bytes. -/
def MAXIMUM_DATA_BUFFER : Nat := 256

def PAIRED_STATE_PAIRED : Nat := 0xAB

def PAIRED_STATE_UNPAIRED : Nat := 0xFF

/-- The global transaction state (`COMMAND_STATE_e` in `firmware.h`). -/
inductive COMMAND_STATE_e
  | RESET
  | WAITING_FOR_PAIRED_ECDH
  | WAITING_FOR_CAR_ECDH
deriving DecidableEq, Repr

/-! ### Framing codec: receive state machine (`receive_anything_uart`,
`src/unnamed/part_001` lines 97-132) -/

inductive RECEIVE_PACKET_STATE_e
  | RESET
  | DATA
  | CRC
deriving DecidableEq, Repr

structure RxLink where
  state : RECEIVE_PACKET_STATE_e
  packet_size : Nat
  buffer : List Nat
  crc : Nat
  /-- Ghost field: the length byte of the frame currently in flight. -/
  frame_len : Nat
deriving DecidableEq, Repr

/-- A complete frame handed to `process_received_packet`. -/
structure Frame where
  length_byte : Nat
  payload : List Nat
  crc_wire : Nat
deriving DecidableEq, Repr

structure RxStepOut where
  rx : RxLink
  /-- Indices of the receive buffer written during this step. -/
  writes : List Nat
  delivered : Option Frame
deriving DecidableEq, Repr

/-- One byte through the receive state machine of
`src/unnamed/part_001:97-132`.  `packet_size` is a `uint8_t` there; the
decrements below use `Nat` subtraction, which agrees with the C semantics on
every state reachable from `RESET` (the DATA state is entered with
`packet_size ≥ 3` and left at 2, so no wraparound occurs). -/
def receive_anything_uart (rx : RxLink) (b : Nat) : RxStepOut :=
  let uart_char := b % 256
  match rx.state with
  | .RESET =>
      if uart_char < 3 ∨ MAXIMUM_PACKET_SIZE ≤ uart_char then
        { rx := { rx with packet_size := uart_char }, writes := [], delivered := none }
      else
        { rx := { state := .DATA, packet_size := uart_char, buffer := [],
                  crc := 0, frame_len := uart_char },
          writes := [], delivered := none }
  | .DATA =>
      let idx := rx.buffer.length
      let buffer1 := rx.buffer ++ [uart_char]
      let st1 := if MAXIMUM_DATA_BUFFER ≤ buffer1.length
                 then RECEIVE_PACKET_STATE_e.RESET else RECEIVE_PACKET_STATE_e.DATA
      let ps1 := rx.packet_size - 1
      let st2 := if ps1 = 2 then RECEIVE_PACKET_STATE_e.CRC else st1
      { rx := { rx with state := st2, packet_size := ps1, buffer := buffer1 },
        writes := [idx], delivered := none }
  | .CRC =>
      let crc1 := (rx.crc % 256) * 256 + uart_char
      let ps1 := rx.packet_size - 1
      if ps1 = 0 then
        { rx := { rx with state := .RESET, packet_size := 0, crc := crc1 },
          writes := [],
          delivered := some ⟨rx.frame_len, rx.buffer, crc1⟩ }
      else
        { rx := { rx with state := .CRC, packet_size := ps1, crc := crc1 },
          writes := [], delivered := none }

def rx_initial : RxLink :=
  { state := .RESET, packet_size := 0, buffer := [], crc := 0, frame_len := 0 }

/-- Feed a byte stream through the receive machine, collecting every step. -/
def rx_trace (rx : RxLink) : List Nat → List RxStepOut
  | [] => []
  | b :: bs =>
      let o := receive_anything_uart rx b
      o :: rx_trace o.rx bs

/-- The guard of `process_received_packet` (`src/unnamed/part_001:138-148`):
frames shorter than 3 or longer than 80 bytes, or with a CRC mismatch, are
dropped before reaching the dispatcher.  `crcF` is the external
`calculate_crc` primitive. -/
def process_received_packet_gate (crcF : List Nat → Nat) (f : Frame) : Bool :=
  if f.payload.length < 3 ∨ 80 < f.payload.length then false
  else if crcF f.payload ≠ f.crc_wire then false
  else true

/-- Invariant of the receive machine relating buffer fill, the remaining-bytes
counter and the ghost frame length. -/
def RxInv (rx : RxLink) : Prop :=
  (rx.state = .DATA →
    rx.buffer.length + rx.packet_size = rx.frame_len ∧
    3 ≤ rx.packet_size ∧ rx.frame_len ≤ 255) ∧
  (rx.state = .CRC →
    rx.buffer.length + 2 = rx.frame_len ∧
    (rx.packet_size = 2 ∨ rx.packet_size = 1) ∧ rx.frame_len ≤ 255)

theorem rx_inv_initial : RxInv rx_initial := by
  constructor <;> intro h <;> simp [rx_initial] at h

theorem rx_inv_step (rx : RxLink) (b : Nat) (h : RxInv rx) :
    RxInv (receive_anything_uart rx b).rx := by
  obtain ⟨hdata, hcrc⟩ := h
  unfold receive_anything_uart
  cases hst : rx.state with
  | RESET =>
      simp only [hst]
      split
      · constructor <;> intro h2 <;> simp_all
      · rename_i hcond
        constructor <;> intro h2 <;> simp_all
        omega
  | DATA =>
      obtain ⟨h1, h2, h3⟩ := hdata hst
      simp only [hst]
      constructor <;> intro h4 <;> simp_all <;> split_ifs at h4 <;> simp_all <;> omega
  | CRC =>
      obtain ⟨h1, h2, h3⟩ := hcrc hst
      simp only [hst]
      split
      · constructor <;> intro h4 <;> simp_all
      · rename_i hps
        constructor <;> intro h4 <;> simp_all
        omega

theorem rx_step_writes (rx : RxLink) (b : Nat) (h : RxInv rx) :
    ∀ i ∈ (receive_anything_uart rx b).writes, i < MAXIMUM_DATA_BUFFER := by
  obtain ⟨hdata, _⟩ := h
  unfold receive_anything_uart
  cases hst : rx.state with
  | RESET => simp only [hst]; split <;> simp
  | DATA =>
      obtain ⟨h1, h2, h3⟩ := hdata hst
      simp only [hst]
      intro i hi
      simp only [List.mem_singleton] at hi
      simp only [hi, MAXIMUM_DATA_BUFFER]
      omega
  | CRC => simp only [hst]; split <;> simp

theorem rx_step_delivered (rx : RxLink) (b : Nat) (h : RxInv rx) :
    ∀ f, (receive_anything_uart rx b).delivered = some f →
      f.payload.length + 2 = f.length_byte := by
  obtain ⟨_, hcrc⟩ := h
  unfold receive_anything_uart
  cases hst : rx.state with
  | RESET => simp only [hst]; split <;> simp
  | DATA => simp only [hst]; simp
  | CRC =>
      obtain ⟨h1, _, _⟩ := hcrc hst
      simp only [hst]
      intro f hf
      split at hf
      · cases hf; simpa using h1
      · simp at hf

theorem rx_trace_sound (stream : List Nat) :
    ∀ rx, RxInv rx → ∀ o ∈ rx_trace rx stream,
      RxInv o.rx ∧
      (∀ i ∈ o.writes, i < MAXIMUM_DATA_BUFFER) ∧
      (∀ f, o.delivered = some f → f.payload.length + 2 = f.length_byte) := by
  induction stream with
  | nil => intro rx _ o ho; simp [rx_trace] at ho
  | cons b bs ih =>
      intro rx hinv o ho
      simp only [rx_trace, List.mem_cons] at ho
      rcases ho with rfl | ho
      · exact ⟨rx_inv_step rx b hinv, rx_step_writes rx b hinv, rx_step_delivered rx b hinv⟩
      · exact ih _ (rx_inv_step rx b hinv) o ho

/-- C7: for every byte stream fed to the framing receive state machine
starting in RESET, the link state always remains in {RESET, DATA, CRC}, every
buffer write is at an index strictly below the fixed receive buffer size, a
length byte L with L < 3 or L ≥ MAX_FRAME leaves the machine in RESET without
consuming further frame bytes, and every frame handed to the dispatcher
satisfies CRC16(payload) = crc_on_wire and len(payload) = length_byte - 2. -/
theorem framing_codec_safety (crcF : List Nat → Nat) (stream : List Nat)
    (o : RxStepOut) (ho : o ∈ rx_trace rx_initial stream) :
    (o.rx.state = .RESET ∨ o.rx.state = .DATA ∨ o.rx.state = .CRC) ∧
    (∀ i ∈ o.writes, i < MAXIMUM_DATA_BUFFER) ∧
    (∀ rx b, rx.state = .RESET → (b % 256 < 3 ∨ MAXIMUM_PACKET_SIZE ≤ b % 256) →
      (receive_anything_uart rx b).rx.state = .RESET ∧
      (receive_anything_uart rx b).writes = [] ∧
      (receive_anything_uart rx b).delivered = none) ∧
    (∀ f, o.delivered = some f → process_received_packet_gate crcF f = true →
      crcF f.payload = f.crc_wire ∧ f.payload.length + 2 = f.length_byte) := by
  obtain ⟨hinv, hw, hd⟩ := rx_trace_sound stream rx_initial rx_inv_initial o ho
  refine ⟨?_, hw, ?_, ?_⟩
  · cases o.rx.state <;> simp
  · intro rx b h1 h2
    unfold receive_anything_uart
    simp only [h1]
    rw [if_pos h2]
    exact ⟨rfl, rfl, rfl⟩
  · intro f hf hg
    refine ⟨?_, hd f hf⟩
    unfold process_received_packet_gate at hg
    split_ifs at hg with h1 h2
    omega

def rx_frame_witness : RxStepOut :=
  { rx := { state := .RESET, packet_size := 0, buffer := [9, 9, 9], crc := 0, frame_len := 5 },
    writes := [], delivered := some ⟨5, [9, 9, 9], 0⟩ }

theorem framing_codec_safety_witness :
    rx_frame_witness ∈ rx_trace rx_initial [5, 9, 9, 9, 0, 0] ∧
    (∀ f, rx_frame_witness.delivered = some f →
      process_received_packet_gate (fun _ => 0) f = true →
      (fun _ => 0 : List Nat → Nat) f.payload = f.crc_wire ∧
      f.payload.length + 2 = f.length_byte) :=
  ⟨by decide,
   (framing_codec_safety (fun _ => 0) [5, 9, 9, 9, 0, 0] rx_frame_witness (by decide)).2.2.2⟩

/-! ### Framing codec: transmit path (`generate_send_message`,
`src/unnamed/part_001` lines 231-261) -/

/-- Padding of the payload length up to the next multiple of `AES_BLOCKLEN`,
as computed inline in `generate_send_message`. -/
def pad16 (n : Nat) : Nat :=
  if n % AES_BLOCKLEN ≠ 0 then n + (AES_BLOCKLEN - n % AES_BLOCKLEN) else n

/-- A frame as assembled by the transmit path: length byte, (possibly
encrypted) payload, and the two CRC bytes appended after the payload. -/
structure SentFrame where
  length_byte : Nat
  payload : List Nat
  crc_bytes : List Nat
deriving DecidableEq, Repr

/-- The transmit path of `src/unnamed/part_001:231-261`.  `enc` is the
in-place `AES_CBC_encrypt_buffer` with the link's AES context and IV (a pure
length-preserving function per the crypto facade); `crcF` is
`calculate_crc`.  Handshake commands (NEW_ECDH, RETURN_ECDH) are sent
unpadded and unencrypted; all others are zero-padded to a 16-byte multiple
and encrypted before the CRC is computed. -/
def generate_send_message (enc : List Nat → List Nat) (crcF : List Nat → Nat)
    (command : Nat) (data : List Nat) : SentFrame :=
  let msg_len := 1 + data.length
  let handshake : Bool :=
    command == COMMAND_BYTE_NEW_MESSAGE_ECDH || command == COMMAND_BYTE_RETURN_OWN_ECDH
  let msg_len2 := if handshake then msg_len else pad16 msg_len
  let payload :=
    if handshake then command :: data
    else enc (command :: data ++ List.replicate (msg_len2 - msg_len) 0)
  let crc := crcF payload
  { length_byte := msg_len2 + 2, payload := payload,
    crc_bytes := [crc / 256 % 256, crc % 256] }

theorem pad16_mod_eq_zero (n : Nat) : pad16 n % 16 = 0 ∨ (n % 16 = 0 ∧ pad16 n = n) := by
  unfold pad16 AES_BLOCKLEN
  split <;> rename_i h
  · left; omega
  · right; omega

theorem pad16_le (n : Nat) : n ≤ pad16 n := by
  unfold pad16 AES_BLOCKLEN
  split <;> omega

/-- C9: every frame transmitted by the send path with a non-handshake command
has a payload length that is a positive multiple of 16 (padded before CBC
encryption); for every transmitted frame the length byte equals the final
payload length plus 2, and the 2-byte CRC over the (possibly encrypted)
payload is appended big-endian. -/
theorem send_path_framing (enc : List Nat → List Nat) (crcF : List Nat → Nat)
    (command : Nat) (data : List Nat)
    (henc : ∀ l, (enc l).length = l.length)
    (hcrc : ∀ l, crcF l < 65536) :
    (command ≠ COMMAND_BYTE_NEW_MESSAGE_ECDH → command ≠ COMMAND_BYTE_RETURN_OWN_ECDH →
      (generate_send_message enc crcF command data).payload.length % 16 = 0 ∧
      0 < (generate_send_message enc crcF command data).payload.length) ∧
    (generate_send_message enc crcF command data).length_byte =
      (generate_send_message enc crcF command data).payload.length + 2 ∧
    (generate_send_message enc crcF command data).crc_bytes =
      [crcF (generate_send_message enc crcF command data).payload / 256,
       crcF (generate_send_message enc crcF command data).payload % 256] ∧
    (generate_send_message enc crcF command data).crc_bytes.getD 0 0 * 256 +
      (generate_send_message enc crcF command data).crc_bytes.getD 1 0 =
      crcF (generate_send_message enc crcF command data).payload := by
  have hlenb : (generate_send_message enc crcF command data).length_byte =
      (if (command == COMMAND_BYTE_NEW_MESSAGE_ECDH ||
           command == COMMAND_BYTE_RETURN_OWN_ECDH : Bool)
       then 1 + data.length else pad16 (1 + data.length)) + 2 := rfl
  have hcrcb : (generate_send_message enc crcF command data).crc_bytes =
      [crcF (generate_send_message enc crcF command data).payload / 256 % 256,
       crcF (generate_send_message enc crcF command data).payload % 256] := rfl
  have hlen : (generate_send_message enc crcF command data).payload.length =
      if (command == COMMAND_BYTE_NEW_MESSAGE_ECDH ||
          command == COMMAND_BYTE_RETURN_OWN_ECDH : Bool)
      then 1 + data.length else pad16 (1 + data.length) := by
    rcases hb : (command == COMMAND_BYTE_NEW_MESSAGE_ECDH ||
        command == COMMAND_BYTE_RETURN_OWN_ECDH : Bool) with _ | _
    · have hple := pad16_le (1 + data.length)
      simp only [generate_send_message, hb, Bool.false_eq_true, if_false]
      rw [henc]
      simp
      omega
    · simp only [generate_send_message, hb, if_true]
      simp
      omega
  have hdivlt : ∀ p : List Nat, crcF p / 256 < 256 := by
    intro p
    have := hcrc p
    omega
  refine ⟨?_, ?_, ?_, ?_⟩
  · intro h1 h2
    rw [hlen]
    have hb : (command == COMMAND_BYTE_NEW_MESSAGE_ECDH ||
        command == COMMAND_BYTE_RETURN_OWN_ECDH : Bool) = false := by
      simp [h1, h2]
    rw [hb]
    simp only [Bool.false_eq_true, if_false]
    rcases pad16_mod_eq_zero (1 + data.length) with h | ⟨h, hp⟩
    · refine ⟨h, ?_⟩
      have := pad16_le (1 + data.length)
      omega
    · rw [hp]; omega
  · rw [hlenb, hlen]
  · rw [hcrcb]
    rw [Nat.mod_eq_of_lt (hdivlt _)]
  · rw [hcrcb]
    simp only [List.getD_cons_zero, List.getD_cons_succ]
    have h1 := hcrc (generate_send_message enc crcF command data).payload
    omega

def crcW : List Nat → Nat := fun l => (l.foldl (· + ·) 0) % 65536

theorem send_path_framing_witness :
    (generate_send_message (fun l => l) crcW 0x47 (List.replicate 16 1)).payload.length % 16 = 0 ∧
    0 < (generate_send_message (fun l => l) crcW 0x47 (List.replicate 16 1)).payload.length ∧
    (generate_send_message (fun l => l) crcW 0x47 (List.replicate 16 1)).length_byte =
      (generate_send_message (fun l => l) crcW 0x47 (List.replicate 16 1)).payload.length + 2 := by
  have h := send_path_framing (fun l => l) crcW 0x47 (List.replicate 16 1)
    (fun _ => rfl) (fun l => Nat.mod_lt _ (by norm_num))
  exact ⟨(h.1 (by decide) (by decide)).1, (h.1 (by decide) (by decide)).2, h.2.1⟩

/-! ### Session layer (`src/unnamed/part_001` lines 153-226) -/

inductive LinkId
  | host
  | board
deriving DecidableEq, Repr

/-- Per-link session state (`DATA_TRANSFER_T` crypto fields).  The AES
context (`AES_init_ctx_iv`) is represented by the pair `aes_key`, `aes_iv`. -/
structure Link where
  exchanged_ecdh : Bool
  aes_iv : List Nat
  aes_key : List Nat
  ecc_public : List Nat
  ecc_secret : List Nat
deriving DecidableEq, Repr

/-- A frame handed to `generate_send_message`: destination link, command
byte and data bytes. -/
structure SendEvt where
  link : LinkId
  command : Nat
  data : List Nat
deriving DecidableEq, Repr

/-- External crypto primitives of the facade: the ephemeral keypair produced
by `uECC_make_key`, the IV drawn from `get_random_bytes`, the
`uECC_shared_secret` derivation and the feature-key AES decryption. -/
structure CryptoEnv where
  gen_public : List Nat
  gen_secret : List Nat
  new_iv : List Nat
  shared : List Nat → List Nat → List Nat
  feature_dec : List Nat → List Nat

def generate_ecdh_local_keys (env : CryptoEnv) (link : Link) : Link :=
  { link with ecc_public := env.gen_public, ecc_secret := env.gen_secret }

def setup_secure_aes (env : CryptoEnv) (link : Link) (other_public : List Nat) : Link :=
  { link with aes_key := env.shared other_public link.ecc_secret }

inductive SessionOutcome
  | handled (link1 : Link) (msg1 : COMMAND_STATE_e) (sent : List SendEvt)
  | to_board_handler
deriving DecidableEq, Repr

inductive PacketOutcome
  | session (o : SessionOutcome)
  | dispatch_host
  | dispatch_board
deriving DecidableEq, Repr

/-- The dispatch of `process_received_packet` (`src/unnamed/part_001:153-192`)
after the length and CRC gate.  With `exchanged_ecdh` false only NEW_ECDH (or
RETURN_ECDH on the board link, forwarded to the board handler) is accepted;
`returnNack` clears `exchanged_ecdh` and resets the global `message_state`.
With `exchanged_ecdh` true the payload is decrypted in place and dispatched
to the role handler for the link (modelled separately below). -/
def process_received_packet (env : CryptoEnv) (lid : LinkId) (link : Link)
    (msg : COMMAND_STATE_e) (buf : List Nat) : PacketOutcome :=
  if link.exchanged_ecdh = false then
    if buf.getD 0 0 = COMMAND_BYTE_NEW_MESSAGE_ECDH then
      if buf.length = 1 + ECDH_PUBLIC_KEY_BYTES + AES_IV_SIZE_BYTES then
        let link1 := generate_ecdh_local_keys env link
        let link2 := { link1 with
          aes_iv := (buf.drop (1 + ECDH_PUBLIC_KEY_BYTES)).take AES_IV_SIZE_BYTES }
        let link3 := setup_secure_aes env link2 ((buf.drop 1).take ECDH_PUBLIC_KEY_BYTES)
        .session (.handled { link3 with exchanged_ecdh := true } msg
          [⟨lid, COMMAND_BYTE_RETURN_OWN_ECDH, link3.ecc_public⟩])
      else
        .session (.handled { link with exchanged_ecdh := false } .RESET
          [⟨lid, COMMAND_BYTE_NACK, []⟩])
    else if buf.getD 0 0 = COMMAND_BYTE_RETURN_OWN_ECDH ∧ lid = .board then
      .session .to_board_handler
    else
      .session (.handled { link with exchanged_ecdh := false } .RESET
        [⟨lid, COMMAND_BYTE_NACK, []⟩])
  else if lid = .host then .dispatch_host else .dispatch_board

/-- C5: on a link whose `exchanged_ecdh` flag is false, a delivered NEW_ECDH
frame is accepted (local ephemeral keypair generated, peer IV copied into the
link, shared secret derived and AES context initialized, RETURN_ECDH with the
48-byte local public key sent, `exchanged_ecdh` set true) if and only if its
payload length is exactly 1 + 48 + 16 bytes; any other length yields a NACK
and clears session state. -/
theorem new_ecdh_accept_iff_exact_length (env : CryptoEnv) (lid : LinkId)
    (link : Link) (msg : COMMAND_STATE_e) (buf : List Nat)
    (hflag : link.exchanged_ecdh = false)
    (hcmd : buf.getD 0 0 = COMMAND_BYTE_NEW_MESSAGE_ECDH)
    (hgen : env.gen_public.length = ECDH_PUBLIC_KEY_BYTES) :
    process_received_packet env lid link msg buf =
      (if buf.length = 1 + ECDH_PUBLIC_KEY_BYTES + AES_IV_SIZE_BYTES then
        .session (.handled
          { exchanged_ecdh := true,
            aes_iv := (buf.drop (1 + ECDH_PUBLIC_KEY_BYTES)).take AES_IV_SIZE_BYTES,
            aes_key := env.shared ((buf.drop 1).take ECDH_PUBLIC_KEY_BYTES) env.gen_secret,
            ecc_public := env.gen_public,
            ecc_secret := env.gen_secret } msg
          [⟨lid, COMMAND_BYTE_RETURN_OWN_ECDH, env.gen_public⟩])
      else
        .session (.handled { link with exchanged_ecdh := false } .RESET
          [⟨lid, COMMAND_BYTE_NACK, []⟩])) ∧
    env.gen_public.length = 48 := by
  refine ⟨?_, hgen⟩
  unfold process_received_packet generate_ecdh_local_keys setup_secure_aes
  rw [if_pos hflag, if_pos hcmd]

def envW : CryptoEnv :=
  { gen_public := List.replicate 48 7, gen_secret := List.replicate 24 3,
    new_iv := List.replicate 16 5, shared := fun a _ => a.take 24,
    feature_dec := fun l => l }

def linkW : Link :=
  { exchanged_ecdh := false, aes_iv := [], aes_key := [],
    ecc_public := [], ecc_secret := [] }

def bufNewEcdhW : List Nat := COMMAND_BYTE_NEW_MESSAGE_ECDH :: List.replicate 64 2

theorem new_ecdh_accept_iff_exact_length_witness :
    process_received_packet envW .board linkW .RESET bufNewEcdhW =
      .session (.handled
        { exchanged_ecdh := true, aes_iv := List.replicate 16 2,
          aes_key := List.replicate 24 2, ecc_public := List.replicate 48 7,
          ecc_secret := List.replicate 24 3 } .RESET
        [⟨.board, COMMAND_BYTE_RETURN_OWN_ECDH, List.replicate 48 7⟩]) := by
  have h := new_ecdh_accept_iff_exact_length envW .board linkW .RESET bufNewEcdhW
    rfl (by decide) (by decide)
  rw [h.1]
  decide

/-! ### Fob persistent state and command handlers
(`src/fob/src/comms.c`, firmware portion, lines 275-612) -/

/-- The flash-backed fob state struct (`FLASH_DATA`). -/
structure FLASH_DATA where
  paired : Nat
  encrypted_pin : List Nat
  car_secret : List Nat
  feature_bitfield : Nat
deriving DecidableEq, Repr

structure FobState where
  host_link : Link
  board_link : Link
  message_state : COMMAND_STATE_e
  fob_state_ram : FLASH_DATA
  fob_state_flash : FLASH_DATA
  unpaired_received_pin : List Nat
deriving DecidableEq, Repr

/-- `get_if_paired` (`src/fob/src/comms.c:610-612`). -/
def get_if_paired (st : FobState) : Nat :=
  if st.fob_state_ram.paired = PAIRED_STATE_PAIRED then 1 else 0

/-- `saveFobState` (`src/fob/src/comms.c:604-608`): erase the flash page and
program the whole RAM struct. -/
def saveFobState (st : FobState) : FobState :=
  { st with fob_state_flash := st.fob_state_ram }

def set_link (st : FobState) (lid : LinkId) (f : Link → Link) : FobState :=
  match lid with
  | .host => { st with host_link := f st.host_link }
  | .board => { st with board_link := f st.board_link }

/-- `returnNack` (fob comms build): one NACK on the link, `exchanged_ecdh`
cleared, global `message_state` reset. -/
def returnNack (st : FobState) (lid : LinkId) : FobState × List SendEvt :=
  ({ set_link st lid (fun l => { l with exchanged_ecdh := false }) with
      message_state := .RESET },
   [⟨lid, COMMAND_BYTE_NACK, []⟩])

def returnAck (lid : LinkId) : SendEvt := ⟨lid, COMMAND_BYTE_ACK, []⟩

/-- `create_new_secure_comms` (`src/unnamed/part_001:211-221`): generate an
ephemeral keypair and a fresh IV, send NEW_ECDH carrying public key and IV. -/
def create_new_secure_comms (env : CryptoEnv) (st : FobState) (lid : LinkId) :
    FobState × SendEvt :=
  (set_link st lid (fun l =>
      { l with ecc_public := env.gen_public, ecc_secret := env.gen_secret,
               aes_iv := env.new_iv }),
   ⟨lid, COMMAND_BYTE_NEW_MESSAGE_ECDH, env.gen_public ++ env.new_iv⟩)

/-- `sendCarUnlockToken` (`src/fob/src/comms.c:591-597`): 16-byte car secret
followed by the feature bitfield. -/
def sendCarUnlockToken (st : FobState) : SendEvt :=
  ⟨.board, COMMAND_BYTE_TO_CAR_UNLOCK,
   st.fob_state_ram.car_secret.take 16 ++ [st.fob_state_ram.feature_bitfield]⟩

/-- `startUnlockCar` (`src/fob/src/comms.c:573-586`). -/
def startUnlockCar (env : CryptoEnv) (st : FobState) : FobState × List SendEvt :=
  if get_if_paired st ≠ 1 then (st, [])
  else if st.message_state ≠ .RESET then (st, [])
  else
    let r := create_new_secure_comms env st .board
    ({ r.1 with message_state := .WAITING_FOR_CAR_ECDH }, [r.2])

/-- `process_received_new_feature` (`src/fob/src/comms.c:553-568`): decrypt
the first 32 buffer bytes in place with the feature AES context, compare the
16 plaintext bytes at offset 6 against the stored encrypted PIN, then set bit
`plaintext[22]` of the feature bitfield (a `uint8_t`, hence `% 256`) and
commit.  Nonzero return means failure. -/
def process_received_new_feature (env : CryptoEnv) (st : FobState)
    (buf : List Nat) : FobState × Bool :=
  let data := env.feature_dec (buf.take 32) ++ buf.drop 32
  if (data.drop 6).take 16 ≠ st.fob_state_ram.encrypted_pin.take 16 then (st, false)
  else
    let feature_number := data.getD 22 0
    (saveFobState { st with fob_state_ram := { st.fob_state_ram with
        feature_bitfield :=
          (st.fob_state_ram.feature_bitfield ||| (1 <<< feature_number)) % 256 } },
     true)

/-- `process_host_uart` (`src/fob/src/comms.c:425-474`).  Note the success
path of ENABLE_FEATURE falls through without sending anything. -/
def process_host_uart (env : CryptoEnv) (st : FobState) (buf : List Nat) :
    FobState × List SendEvt :=
  if buf.getD 0 0 = COMMAND_BYTE_PAIRED_IN_PAIRING_MODE then
    if get_if_paired st = 1 then (st, [returnAck .host])
    else returnNack st .host
  else if buf.getD 0 0 = COMMAND_BYTE_UNPARED_IN_PARING_MODE then
    if get_if_paired st = 0 then
      let st1 := { st with unpaired_received_pin := (buf.drop 1).take 16 }
      let r := create_new_secure_comms env st1 .board
      ({ r.1 with message_state := .WAITING_FOR_PAIRED_ECDH }, [r.2])
    else returnNack st .host
  else if buf.getD 0 0 = COMMAND_BYTE_ENABLE_FEATURE then
    if get_if_paired st ≠ 1 then returnNack st .host
    else
      let r := process_received_new_feature env st buf
      if r.2 = false then returnNack r.1 .host
      else (r.1, [])
  else returnNack st .host

/-- `process_board_uart` (`src/fob/src/comms.c:476-551`).  Two faithful
transcriptions of C slips: the GET_SECRET branch uses the raw `memcmp` result
as its condition, so the secret is sent when the PIN fields differ; the
RETURN_SECRET branch assigns `paired = true` (the value 1), not the
`PAIRED_STATE_PAIRED` literal. -/
def process_board_uart (env : CryptoEnv) (st : FobState) (buf : List Nat) :
    FobState × List SendEvt :=
  if buf.getD 0 0 = COMMAND_BYTE_RETURN_OWN_ECDH then
    if buf.length ≠ 1 + 48 then
      if st.message_state = .WAITING_FOR_PAIRED_ECDH then
        let r1 := returnNack st .host
        let r2 := returnNack r1.1 .board
        (r2.1, r1.2 ++ r2.2)
      else returnNack st .board
    else
      let st1 := { st with
        board_link := setup_secure_aes env st.board_link ((buf.drop 1).take 48) }
      if st1.message_state = .WAITING_FOR_PAIRED_ECDH then
        (st1, [⟨.board, COMMAND_BYTE_GET_SECRET, st1.unpaired_received_pin.take 16⟩])
      else if st1.message_state = .WAITING_FOR_CAR_ECDH then
        ({ st1 with board_link := { st1.board_link with exchanged_ecdh := false },
                    message_state := .RESET },
         [sendCarUnlockToken st1])
      else returnNack st1 .board
  else if buf.getD 0 0 = COMMAND_BYTE_GET_SECRET then
    if get_if_paired st ≠ 1 then returnNack st .board
    else if st.fob_state_ram.encrypted_pin.take 16 ≠ (buf.drop 1).take 16 then
      (st, [⟨.board, COMMAND_BYTE_RETURN_SECRET, st.fob_state_ram.car_secret.take 16⟩])
    else returnNack st .board
  else if buf.getD 0 0 = COMMAND_BYTE_RETURN_SECRET then
    let st1 := { st with message_state := .RESET,
                         board_link := { st.board_link with exchanged_ecdh := false } }
    if get_if_paired st1 ≠ 0 then returnNack st1 .host
    else
      let st2 := saveFobState { st1 with fob_state_ram := { st1.fob_state_ram with
          encrypted_pin := st1.unpaired_received_pin.take 16,
          car_secret := (buf.drop 1).take 16,
          paired := 1 } }
      (st2, [returnAck .host])
  else if buf.getD 0 0 = COMMAND_BYTE_NACK then
    ({ st with board_link := { st.board_link with exchanged_ecdh := false },
               message_state := .RESET }, [])
  else (st, [])

def pinW : List Nat := List.replicate 16 0x11

def secretW : List Nat := List.replicate 16 0x55

def fobPairedW : FobState :=
  { host_link := linkW, board_link := { linkW with exchanged_ecdh := true },
    message_state := .RESET,
    fob_state_ram := ⟨PAIRED_STATE_PAIRED, pinW, secretW, 0⟩,
    fob_state_flash := ⟨PAIRED_STATE_PAIRED, pinW, secretW, 0⟩,
    unpaired_received_pin := List.replicate 16 0 }

def fobUnpairedW : FobState :=
  { host_link := linkW, board_link := { linkW with exchanged_ecdh := true },
    message_state := .WAITING_FOR_PAIRED_ECDH,
    fob_state_ram := ⟨PAIRED_STATE_UNPAIRED, List.replicate 16 0, List.replicate 16 0, 0⟩,
    fob_state_flash := ⟨PAIRED_STATE_UNPAIRED, List.replicate 16 0, List.replicate 16 0, 0⟩,
    unpaired_received_pin := List.replicate 16 9 }

/-- C1 (observed slip): the GET_SECRET handler of a paired fob NACKs the
frame whose PIN field equals the stored encrypted PIN, and replies
RETURN_SECRET with the stored car secret when the PIN field differs — the
`memcmp` result is used without negation (`src/fob/src/comms.c:516`). -/
theorem get_secret_pin_comparison_inverted :
    (process_board_uart envW fobPairedW (COMMAND_BYTE_GET_SECRET :: pinW)).2 =
      [⟨.board, COMMAND_BYTE_NACK, []⟩] ∧
    (process_board_uart envW fobPairedW
        (COMMAND_BYTE_GET_SECRET :: List.replicate 16 0x22)).2 =
      [⟨.board, COMMAND_BYTE_RETURN_SECRET, secretW⟩] := by
  constructor
  · decide
  · decide

/-- C2 (observed slip): on RETURN_SECRET the unpaired fob copies the stashed
PIN hash and the received secret into persistent state, commits to flash,
clears `message_state` and ACKs the Host — but stores `paired = 1` (the C
literal `true`), not the PAIRED literal 0xAB, so `get_if_paired` still
reports 0 afterwards. -/
theorem return_secret_pairs_with_true_not_paired_literal :
    ((process_board_uart envW fobUnpairedW
        (COMMAND_BYTE_RETURN_SECRET :: List.replicate 16 0xAA)).1.fob_state_ram =
      ⟨1, List.replicate 16 9, List.replicate 16 0xAA, 0⟩) ∧
    ((process_board_uart envW fobUnpairedW
        (COMMAND_BYTE_RETURN_SECRET :: List.replicate 16 0xAA)).1.fob_state_flash =
      (process_board_uart envW fobUnpairedW
        (COMMAND_BYTE_RETURN_SECRET :: List.replicate 16 0xAA)).1.fob_state_ram) ∧
    ((process_board_uart envW fobUnpairedW
        (COMMAND_BYTE_RETURN_SECRET :: List.replicate 16 0xAA)).1.message_state = .RESET) ∧
    ((process_board_uart envW fobUnpairedW
        (COMMAND_BYTE_RETURN_SECRET :: List.replicate 16 0xAA)).1.board_link.exchanged_ecdh
      = false) ∧
    ((process_board_uart envW fobUnpairedW
        (COMMAND_BYTE_RETURN_SECRET :: List.replicate 16 0xAA)).2 =
      [⟨.host, COMMAND_BYTE_ACK, []⟩]) ∧
    get_if_paired (process_board_uart envW fobUnpairedW
        (COMMAND_BYTE_RETURN_SECRET :: List.replicate 16 0xAA)).1 = 0 ∧
    (1 : Nat) ≠ PAIRED_STATE_PAIRED := by
  refine ⟨by decide, by decide, by decide, by decide, by decide, by decide, by decide⟩

def bufFeatureW : List Nat :=
  COMMAND_BYTE_ENABLE_FEATURE :: 0 :: 0 :: 0 :: 0 :: 0 ::
    (pinW ++ (1 :: List.replicate 9 0))

def bufFeatureBadW : List Nat :=
  COMMAND_BYTE_ENABLE_FEATURE :: 0 :: 0 :: 0 :: 0 :: 0 ::
    (List.replicate 16 0x22 ++ (1 :: List.replicate 9 0))

/-- C4 (observed slip): a valid ENABLE_FEATURE on a paired fob sets the
feature bit and commits it to flash but sends nothing on the HostLink (no
ACK); an embedded PIN mismatch yields exactly one NACK with the persistent
feature bitfield unchanged. -/
theorem enable_feature_success_sends_no_ack :
    (process_host_uart envW fobPairedW bufFeatureW).2 = [] ∧
    (process_host_uart envW fobPairedW bufFeatureW).1.fob_state_ram.feature_bitfield = 2 ∧
    ((process_host_uart envW fobPairedW bufFeatureW).1.fob_state_flash =
      (process_host_uart envW fobPairedW bufFeatureW).1.fob_state_ram) ∧
    (process_host_uart envW fobPairedW bufFeatureBadW).2 =
      [⟨.host, COMMAND_BYTE_NACK, []⟩] ∧
    (process_host_uart envW fobPairedW bufFeatureBadW).1.fob_state_ram.feature_bitfield =
      fobPairedW.fob_state_ram.feature_bitfield := by
  refine ⟨by decide, by decide, by decide, by decide, by decide⟩

/-- C6 counterexample: a fob in WAITING_FOR_PAIRED_ECDH receiving NACK on its
BoardLink resets `message_state` and the link flag but sends nothing at all —
in particular no NACK toward the Host on the HostLink. -/
theorem board_nack_not_propagated_to_host :
    (process_board_uart envW fobUnpairedW [COMMAND_BYTE_NACK]).2 = [] ∧
    (process_board_uart envW fobUnpairedW [COMMAND_BYTE_NACK]).1.message_state = .RESET ∧
    (process_board_uart envW fobUnpairedW
        [COMMAND_BYTE_NACK]).1.board_link.exchanged_ecdh = false := by
  refine ⟨by decide, by decide, by decide⟩

/-- C6 amended: when a fob whose `message_state` is WAITING_FOR_PAIRED_ECDH
receives a NACK on its BoardLink, it clears `message_state` to RESET and
clears that link's `exchanged_ecdh`, and it sends nothing on either link (no
NACK is forwarded to the Host). -/
theorem board_nack_resets_silently (env : CryptoEnv) (st : FobState)
    (buf : List Nat)
    (hcmd : buf.getD 0 0 = COMMAND_BYTE_NACK)
    (hmsg : st.message_state = .WAITING_FOR_PAIRED_ECDH) :
    (process_board_uart env st buf).1.message_state = .RESET ∧
    (process_board_uart env st buf).1.board_link.exchanged_ecdh = false ∧
    (process_board_uart env st buf).2 = [] := by
  unfold process_board_uart
  rw [hcmd]
  norm_num [COMMAND_BYTE_NACK, COMMAND_BYTE_RETURN_OWN_ECDH,
    COMMAND_BYTE_GET_SECRET, COMMAND_BYTE_RETURN_SECRET]

theorem board_nack_resets_silently_witness :
    ([COMMAND_BYTE_NACK] : List Nat).getD 0 0 = COMMAND_BYTE_NACK ∧
    fobUnpairedW.message_state = .WAITING_FOR_PAIRED_ECDH ∧
    ((process_board_uart envW fobUnpairedW [COMMAND_BYTE_NACK]).1.message_state = .RESET ∧
     (process_board_uart envW fobUnpairedW
        [COMMAND_BYTE_NACK]).1.board_link.exchanged_ecdh = false ∧
     (process_board_uart envW fobUnpairedW [COMMAND_BYTE_NACK]).2 = []) :=
  ⟨by decide, by decide,
   board_nack_resets_silently envW fobUnpairedW [COMMAND_BYTE_NACK] (by decide) (by decide)⟩

theorem returnNack_message_state (st : FobState) (lid : LinkId) :
    (returnNack st lid).1.message_state = .RESET := by
  cases lid <;> rfl

/-- C8: `message_state` returns to RESET on every success and NACK path of
the pair and unlock transactions.  Concretely: any board- or host-handler run
that emits a NACK ends with `message_state = RESET`; the terminal board
commands (RETURN_SECRET, received NACK) end with RESET; a button press on a
paired fob with `message_state = RESET` sets WAITING_FOR_CAR_ECDH and starts
the board handshake; and the ensuing RETURN_ECDH sends UNLOCK_CAR with the
car secret and feature bitfield, clears the BoardLink `exchanged_ecdh`, and
returns `message_state` to RESET. -/
theorem message_state_reset_discipline (env : CryptoEnv) (st : FobState)
    (buf : List Nat) :
    (get_if_paired st = 1 → st.message_state = .RESET →
      (startUnlockCar env st).1.message_state = .WAITING_FOR_CAR_ECDH ∧
      (startUnlockCar env st).2 =
        [⟨.board, COMMAND_BYTE_NEW_MESSAGE_ECDH, env.gen_public ++ env.new_iv⟩]) ∧
    (buf.getD 0 0 = COMMAND_BYTE_RETURN_OWN_ECDH → buf.length = 1 + 48 →
      st.message_state = .WAITING_FOR_CAR_ECDH →
      (process_board_uart env st buf).1.message_state = .RESET ∧
      (process_board_uart env st buf).1.board_link.exchanged_ecdh = false ∧
      (process_board_uart env st buf).2 =
        [⟨.board, COMMAND_BYTE_TO_CAR_UNLOCK,
          st.fob_state_ram.car_secret.take 16 ++ [st.fob_state_ram.feature_bitfield]⟩]) ∧
    ((∃ e ∈ (process_board_uart env st buf).2, e.command = COMMAND_BYTE_NACK) →
      (process_board_uart env st buf).1.message_state = .RESET) ∧
    ((∃ e ∈ (process_host_uart env st buf).2, e.command = COMMAND_BYTE_NACK) →
      (process_host_uart env st buf).1.message_state = .RESET) ∧
    ((buf.getD 0 0 = COMMAND_BYTE_RETURN_SECRET ∨ buf.getD 0 0 = COMMAND_BYTE_NACK) →
      (process_board_uart env st buf).1.message_state = .RESET) := by
  refine ⟨?_, ?_, ?_, ?_, ?_⟩
  · intro hp hr
    unfold startUnlockCar
    rw [if_neg (by omega), if_neg (by simp [hr])]
    exact ⟨rfl, rfl⟩
  · intro hcmd hlen hmsg
    unfold process_board_uart
    rw [hcmd]
    rw [if_pos rfl, if_neg (by omega)]
    have hmsg1 : ({ st with
        board_link := setup_secure_aes env st.board_link
          ((buf.drop 1).take 48) } : FobState).message_state =
        COMMAND_STATE_e.WAITING_FOR_CAR_ECDH := hmsg
    rw [if_neg (by rw [hmsg1]; intro h; cases h), if_pos hmsg1]
    exact ⟨rfl, rfl, rfl⟩
  · intro h
    simp only [process_board_uart] at h ⊢
    split_ifs at h ⊢ <;>
      first
        | rfl
        | apply returnNack_message_state
        | simp [returnAck, sendCarUnlockToken, COMMAND_BYTE_GET_SECRET,
            COMMAND_BYTE_RETURN_SECRET, COMMAND_BYTE_TO_CAR_UNLOCK,
            COMMAND_BYTE_ACK, COMMAND_BYTE_NACK] at h
  · intro h
    simp only [process_host_uart] at h ⊢
    split_ifs at h ⊢ <;>
      first
        | rfl
        | apply returnNack_message_state
        | simp [returnAck, create_new_secure_comms, COMMAND_BYTE_ACK,
            COMMAND_BYTE_NEW_MESSAGE_ECDH, COMMAND_BYTE_NACK] at h
  · intro hcmd
    simp only [process_board_uart]
    rcases hcmd with hcmd | hcmd <;> rw [hcmd] <;>
      norm_num [COMMAND_BYTE_NACK, COMMAND_BYTE_RETURN_OWN_ECDH,
        COMMAND_BYTE_GET_SECRET, COMMAND_BYTE_RETURN_SECRET] <;>
      split_ifs <;>
      first
        | rfl
        | apply returnNack_message_state

def bufReturnEcdhW : List Nat := COMMAND_BYTE_RETURN_OWN_ECDH :: List.replicate 48 4

def fobCarWaitW : FobState :=
  { fobPairedW with message_state := .WAITING_FOR_CAR_ECDH }

theorem message_state_reset_discipline_witness :
    ((startUnlockCar envW fobPairedW).1.message_state = .WAITING_FOR_CAR_ECDH ∧
     (startUnlockCar envW fobPairedW).2 =
       [⟨.board, COMMAND_BYTE_NEW_MESSAGE_ECDH, envW.gen_public ++ envW.new_iv⟩]) ∧
    ((process_board_uart envW fobCarWaitW bufReturnEcdhW).1.message_state = .RESET ∧
     (process_board_uart envW fobCarWaitW bufReturnEcdhW).1.board_link.exchanged_ecdh
        = false ∧
     (process_board_uart envW fobCarWaitW bufReturnEcdhW).2 =
       [⟨.board, COMMAND_BYTE_TO_CAR_UNLOCK,
         fobCarWaitW.fob_state_ram.car_secret.take 16 ++
           [fobCarWaitW.fob_state_ram.feature_bitfield]⟩]) :=
  ⟨(message_state_reset_discipline envW fobPairedW []).1 (by decide) (by decide),
   (message_state_reset_discipline envW fobCarWaitW bufReturnEcdhW).2.1
     (by decide) (by decide) (by decide)⟩

/-! ### Car board-link handler (`src/car/src/firmware.c` with the car comms
layer of `src/unnamed/part_000`) -/

def UNLOCK_EEPROM_LOC : Nat := 0x7C0

def UNLOCK_EEPROM_SIZE : Nat := 64

def NUM_FEATURES : Nat := 3

def FEATURE_END : Nat := 0x7C0

def FEATURE_SIZE : Nat := 64

inductive CarEvt
  | board_send (command : Nat)
  | host_banner (bytes : List Nat)
  | host_text_nack
deriving DecidableEq, Repr

/-- `unlockCar` (`src/car/src/firmware.c:99-121`).  `eeprom addr` is the list
of bytes `EEPROMRead` yields at `addr`; `msg` is the pointer `&buffer[1]`
into the raw receive buffer, so `msg 16` is receive-buffer byte 17.  The C
function has no return statement on the success path; the success behaviour
(no "Car is not happy" text after banners are written) is modelled by
returning 0 there. -/
def unlockCar (eeprom : Nat → List Nat) (car_id : List Nat) (msg : Nat → Nat) :
    Int × List CarEvt :=
  if ((List.range 16).all fun i => msg i == car_id.getD i 0) = false then (-1, [])
  else
    let feature_bits := msg 16
    let banners := (List.range NUM_FEATURES).filterMap fun i =>
      if feature_bits &&& (1 <<< i) ≠ 0 then
        some (CarEvt.host_banner (eeprom (FEATURE_END - (i + 1) * FEATURE_SIZE)))
      else none
    (0, CarEvt.host_banner (eeprom UNLOCK_EEPROM_LOC) :: banners)

/-- The car's `process_board_uart` (`src/car/src/firmware.c:72-94`), with
`returnNack`/`returnAck`/`returnHostNack` from `src/unnamed/part_000`.
`buffer` is the raw receive buffer including stale bytes beyond the delivered
payload; `buffer_index` is the delivered payload length.  The returned `Bool`
is the BoardLink `exchanged_ecdh` flag after the handler. -/
def car_process_board_uart (eeprom : Nat → List Nat) (car_id : List Nat)
    (buffer : Nat → Nat) (buffer_index : Nat) : Bool × List CarEvt :=
  if buffer 0 = COMMAND_BYTE_TO_CAR_UNLOCK then
    if buffer_index ≠ 1 + 16 then (false, [CarEvt.board_send COMMAND_BYTE_NACK])
    else
      let r := unlockCar eeprom car_id (fun i => buffer (1 + i))
      (false, if r.1 ≠ 0 then r.2 ++ [CarEvt.host_text_nack] else r.2)
  else (false, [CarEvt.board_send COMMAND_BYTE_ACK])

def eepromW : Nat → List Nat := fun addr => [addr / 256 % 256, addr % 256]

def carIdW : List Nat := List.replicate 16 2

/-- Receive-buffer contents for the car: the UNLOCK_CAR command byte, 16
CAR_ID bytes at indices 1..16, and the value `t` at every later index (in
particular at index 17, one past a 17-byte payload). -/
def carBufW (t : Nat) : Nat → Nat :=
  fun i => if i = 0 then COMMAND_BYTE_TO_CAR_UNLOCK else if i < 17 then 2 else t

/-- C3 (observed slip): the car rejects the 18-byte UNLOCK_CAR payload
(command, 16-byte car secret, 1-byte feature bitfield) that
`sendCarUnlockToken` actually transmits — its length check demands exactly 17
payload bytes — while the same bytes delivered as a 17-byte payload are
accepted, with the unlock banner emitted and the session torn down. -/
theorem unlock_car_length_check_off_by_one :
    car_process_board_uart eepromW carIdW (carBufW 0) 18 =
      (false, [CarEvt.board_send COMMAND_BYTE_NACK]) ∧
    car_process_board_uart eepromW carIdW (carBufW 0) 17 =
      (false, [CarEvt.host_banner (eepromW UNLOCK_EEPROM_LOC)]) := by
  refine ⟨by decide, by decide⟩

/-- C10: for every UNLOCK_CAR frame that passes the handler's own length
check (17-byte payload) and whose CAR_ID bytes match, the banner output is
determined by receive-buffer byte 17 — one byte beyond the delivered,
CRC-validated payload — and two buffers that agree on the entire 17-byte
payload can yield different banner output. -/
theorem unlock_feature_bits_read_beyond_payload (eeprom : Nat → List Nat)
    (car_id : List Nat) (buffer : Nat → Nat)
    (hcmd : buffer 0 = COMMAND_BYTE_TO_CAR_UNLOCK)
    (hid : ∀ i, i < 16 → buffer (1 + i) = car_id.getD i 0) :
    (car_process_board_uart eeprom car_id buffer 17).2 =
      CarEvt.host_banner (eeprom UNLOCK_EEPROM_LOC) ::
        (List.range NUM_FEATURES).filterMap (fun i =>
          if buffer 17 &&& (1 <<< i) ≠ 0 then
            some (CarEvt.host_banner (eeprom (FEATURE_END - (i + 1) * FEATURE_SIZE)))
          else none) ∧
    (∃ b1 b2 : Nat → Nat, (∀ i, i < 17 → b1 i = b2 i) ∧
      (car_process_board_uart eepromW carIdW b1 17).2 ≠
        (car_process_board_uart eepromW carIdW b2 17).2) := by
  constructor
  · unfold car_process_board_uart
    rw [if_pos hcmd, if_neg (by omega)]
    unfold unlockCar
    have hall : ((List.range 16).all fun i => buffer (1 + i) == car_id.getD i 0)
        = true := by
      rw [List.all_eq_true]
      intro i hi
      rw [List.mem_range] at hi
      simp [hid i hi]
    have hne : ¬ (((List.range 16).all fun i => buffer (1 + i) == car_id.getD i 0)
        = false) := by
      rw [hall]
      simp
    rw [if_neg hne]
    norm_num
  · refine ⟨carBufW 0, carBufW 1, by decide, by decide⟩

theorem unlock_feature_bits_read_beyond_payload_witness :
    carBufW 3 0 = COMMAND_BYTE_TO_CAR_UNLOCK ∧
    (car_process_board_uart eepromW carIdW (carBufW 3) 17).2 =
      CarEvt.host_banner (eepromW UNLOCK_EEPROM_LOC) ::
        (List.range NUM_FEATURES).filterMap (fun i =>
          if carBufW 3 17 &&& (1 <<< i) ≠ 0 then
            some (CarEvt.host_banner (eepromW (FEATURE_END - (i + 1) * FEATURE_SIZE)))
          else none) :=
  ⟨by decide,
   (unlock_feature_bits_read_beyond_payload eepromW carIdW (carBufW 3)
     (by decide) (by decide)).1⟩

end ECTF
